import Mathlib

/-!
Shallow embedding of the Flynn-Project tool engines
(src/packages/python/flynn_data/tools.py and src/packages/python/flynn_ml/tools.py).

Cell values of a loaded CSV are modelled by `Flynn.Value`: numeric cells as
rationals (pandas int64/float64), textual cells as strings, and missing cells
(pandas NaN) as `vnone`.  A dataset is a column-name list plus a list of rows,
each row an association list from column name to value (the record form pandas
produces with to_dict).  File reading (pd.read_csv) is modelled by an
environment `FS` mapping a path to either a loaded dataset or a load error.

Python exceptions raised inside the engine bodies are modelled by
`Except String`; the try/except wrapper at the engine boundary is
`Flynn.mkEnvelope`, producing the uniform success/error envelope that the
source returns as a dict.
-/

namespace Flynn

/-- A cell value: numeric (pandas int64/float64, modelled as a rational),
textual, or missing (NaN). -/
inductive Value where
  | vnum (q : ℚ)
  | vstr (s : String)
  | vnone
deriving DecidableEq, Repr

/-- A row in record form, as produced by to_dict with records orientation. -/
abbrev Row := List (String × Value)

/-- An in-memory dataset: ordered column names and rows. -/
structure Dataset where
  cols : List String
  rows : List Row
deriving DecidableEq, Repr

/-- The file environment: pd.read_csv either yields a dataset or raises. -/
abbrev FS := String → Except String Dataset

/-- Generic association-list lookup (first match), used for rows and caches. -/
def tblGet {α : Type} : List (String × α) → String → Option α
  | [], _ => none
  | (k, v) :: rest, c => if k = c then some v else tblGet rest c

/-- Value of column `c` in row `r`; a cell absent from the record is NaN. -/
def colVal (r : Row) (c : String) : Value :=
  (tblGet r c).getD .vnone

/-- Whether a value is missing (pandas NaN). -/
def isNA : Value → Bool
  | .vnone => true
  | _ => false

/-- Numeric view of a value. -/
def toNumV : Value → Option ℚ
  | .vnum q => some q
  | _ => none

/-- Textual view of a value. -/
def toStrV : Value → Option String
  | .vstr s => some s
  | _ => none

/-- Rendering of a numeric cell by str(); integer-valued rationals render as
Python ints, other rationals via the rational printer (an abstraction of the
float repr, unused by any claim). -/
def numStr (q : ℚ) : String :=
  if q.den = 1 then toString q.num else toString q

/-- astype(str) on a cell: NaN is stringified to the literal text nan. -/
def cellStr : Value → String
  | .vnum q => numStr q
  | .vstr s => s
  | .vnone => "nan"

/-- str(val) on the comparison argument: an absent value is Python None,
whose str() is the text None. -/
def argStr : Option Value → String
  | none => "None"
  | some v => cellStr v

/-- Substring test: needle occurs contiguously in the haystack
(str.contains with a regex-free pattern). -/
def strContains (hay needle : String) : Bool :=
  decide (needle.toList <:+: hay.toList)

/-! ### Elementwise comparison semantics (pandas Series vs scalar)

`df[col] == val` is an elementwise comparison: NaN compares unequal to
everything, and a type mismatch between a cell and the scalar yields False
for eq (True for ne).  Ordered comparisons between a number and a string
raise TypeError, which the engine converts to a failure. -/

/-- Elementwise == between a cell and the comparison argument. -/
def evalEq (cell : Value) (val : Option Value) : Bool :=
  match cell, val with
  | .vnum a, some (.vnum b) => decide (a = b)
  | .vstr a, some (.vstr b) => decide (a = b)
  | _, _ => false

/-- Elementwise != is the pointwise negation of ==. -/
def evalNe (cell : Value) (val : Option Value) : Bool :=
  !evalEq cell val

/-- Elementwise ordered comparison; mismatched operand types raise. -/
def evalOrd (cmpNum : ℚ → ℚ → Bool) (cmpStr : String → String → Bool)
    (cell : Value) (val : Option Value) : Except String Bool :=
  match cell, val with
  | .vnum a, some (.vnum b) => .ok (cmpNum a b)
  | .vstr a, some (.vstr b) => .ok (cmpStr a b)
  | .vnone, some (.vnum _) => .ok false
  | _, _ => .error "TypeError: comparison not supported between column and value"

/-- Elementwise contains test after text coercion of both sides; this is the
astype(str) pipeline, so a NaN cell is the text nan before the test. -/
def evalContains (cell : Value) (val : Option Value) : Bool :=
  strContains (cellStr cell) (argStr val)

/-- The source if-chain on the operator: selects the elementwise comparison
or reports the unknown operator. -/
def selectOp (op : String) :
    Except String (Value → Option Value → Except String Bool) :=
  if op = "eq" then .ok (fun c v => .ok (evalEq c v))
  else if op = "ne" then .ok (fun c v => .ok (evalNe c v))
  else if op = "gt" then .ok (evalOrd (fun a b => decide (b < a)) (fun a b => decide (b < a)))
  else if op = "lt" then .ok (evalOrd (fun a b => decide (a < b)) (fun a b => decide (a < b)))
  else if op = "gte" then .ok (evalOrd (fun a b => decide (b ≤ a)) (fun a b => decide (b ≤ a)))
  else if op = "lte" then .ok (evalOrd (fun a b => decide (a ≤ b)) (fun a b => decide (a ≤ b)))
  else if op = "contains" then .ok (fun c v => .ok (evalContains c v))
  else .error ("Unknown operator: " ++ op)

/-- The operator enum of the filter tool schema. -/
def recognizedOps : List String :=
  ["eq", "ne", "gt", "lt", "gte", "lte", "contains"]

/-- The agg_func enum of the aggregate tool schema. -/
def aggFuncs : List String :=
  ["sum", "mean", "count", "min", "max"]

/-! ### Aggregation -/

/-- A reduced scalar of an aggregation: numeric, textual (string columns),
or NaN (empty reduction). -/
inductive Scalar where
  | num (q : ℚ)
  | str (s : String)
  | nan
deriving DecidableEq, Repr

/-- First-occurrence deduplication with an accumulator of seen keys. -/
def dedupAux (seen : List Value) : List Value → List Value
  | [] => []
  | v :: rest =>
    if v ∈ seen then dedupAux seen rest
    else v :: dedupAux (v :: seen) rest

/-- Distinct values in order of first occurrence. -/
def dedupFirst (l : List Value) : List Value :=
  dedupAux [] l

/-- Group keys of groupby: the distinct non-missing values of the grouping
column (groupby drops NaN keys). -/
def groupKeys (ds : Dataset) (g : String) : List Value :=
  dedupFirst ((ds.rows.map (fun r => colVal r g)).filter (fun v => !isNA v))

/-- The agg-column values of the rows whose grouping column equals `k`. -/
def groupVals (ds : Dataset) (g a : String) (k : Value) : List Value :=
  ds.rows.filterMap (fun r => if colVal r g = k then some (colVal r a) else none)

/-- Reduce one group of values with a recognized aggregation function,
with pandas skipna semantics: count counts non-missing values; sum of no
numeric values is 0; mean/min/max of no values is NaN; string columns
reduce textually (sum concatenates, min/max are lexicographic, mean
raises); a column mixing numbers and strings raises. -/
def aggVals (func : String) (vs : List Value) : Except String Scalar :=
  if func = "count" then .ok (.num (vs.countP (fun v => !isNA v)))
  else if (vs.filterMap toStrV).isEmpty then
    if func = "sum" then .ok (.num (vs.filterMap toNumV).sum)
    else if func = "mean" then
      .ok (match vs.filterMap toNumV with
           | [] => Scalar.nan
           | l => .num (l.sum / (l.length : ℚ)))
    else if func = "min" then
      .ok (match vs.filterMap toNumV with
           | [] => Scalar.nan
           | x :: xs => .num (xs.foldl Min.min x))
    else .ok (match vs.filterMap toNumV with
              | [] => Scalar.nan
              | x :: xs => .num (xs.foldl Max.max x))
  else if (vs.filterMap toNumV).isEmpty then
    if func = "sum" then .ok (.str (String.join (vs.filterMap toStrV)))
    else if func = "mean" then
      .error "TypeError: could not compute mean of strings"
    else if func = "min" then
      .ok (match vs.filterMap toStrV with
           | [] => Scalar.nan
           | x :: xs => .str (xs.foldl Min.min x))
    else .ok (match vs.filterMap toStrV with
              | [] => Scalar.nan
              | x :: xs => .str (xs.foldl Max.max x))
  else .error "TypeError: mixed numeric and string column"

/-! ### Correlation -/

/-- A column is numeric-typed when every cell is a number or missing
(select_dtypes with the number kind; an all-missing column is float). -/
def numericCol (ds : Dataset) (c : String) : Bool :=
  ds.rows.all (fun r => !(toNumV (colVal r c)).isNone || isNA (colVal r c))

/-- The numeric-typed columns, in column order. -/
def numericCols (ds : Dataset) : List String :=
  ds.cols.filter (fun c => numericCol ds c)

/-- Pairwise-complete observations of two columns: the rows where both
cells are numeric (pandas corr drops pairs with a missing side). -/
def pairedVals (ds : Dataset) (a b : String) : List (ℚ × ℚ) :=
  ds.rows.filterMap (fun r =>
    match toNumV (colVal r a), toNumV (colVal r b) with
    | some x, some y => some (x, y)
    | _, _ => none)

/-- Mean of a list of rationals (0 on the empty list, never consulted there). -/
def meanQ (l : List ℚ) : ℚ :=
  l.sum / (l.length : ℚ)

/-- Centered sum of squares of a list. -/
def css (l : List ℚ) : ℚ :=
  (l.map (fun x => (x - meanQ l) * (x - meanQ l))).sum

/-- Centered cross product of a list of pairs. -/
def ccp (l : List (ℚ × ℚ)) : ℚ :=
  (l.map (fun p =>
    (p.1 - meanQ (l.map Prod.fst)) * (p.2 - meanQ (l.map Prod.snd)))).sum

/-- One Pearson correlation entry over the pairwise-complete observations,
with the engine's normalization folded in: the entry is the explicit
no-value marker exactly when the float computation is non-finite, i.e. when
there are no pairs or one side has zero variance. -/
noncomputable def corrEntry (ds : Dataset) (a b : String) : Option ℝ :=
  if pairedVals ds a b = [] ∨ css ((pairedVals ds a b).map Prod.fst) = 0 ∨
      css ((pairedVals ds a b).map Prod.snd) = 0 then none
  else some ((ccp (pairedVals ds a b) : ℝ) /
    (Real.sqrt ((css ((pairedVals ds a b).map Prod.fst) : ℚ) : ℝ) *
     Real.sqrt ((css ((pairedVals ds a b).map Prod.snd) : ℚ) : ℝ)))

/-- The correlation matrix as a mapping-of-mappings keyed by the numeric
columns on both axes. -/
noncomputable def corrMatrix (ds : Dataset) :
    List (String × List (String × Option ℝ)) :=
  (numericCols ds).map (fun a =>
    (a, (numericCols ds).map (fun b => (b, corrEntry ds a b))))

/-- Double lookup in the matrix-of-mappings. -/
def corrLookup (m : List (String × List (String × Option ℝ)))
    (a b : String) : Option (Option ℝ) :=
  (tblGet m a).bind (fun row => tblGet row b)

/-! ### Describe and load payloads -/

/-- Per-column summary statistics (a faithful-in-shape reduction of
df.describe: the non-finite-to-None normalization is the Option). -/
structure ColStats where
  count : Nat
  mean : Option ℚ
  minV : Option ℚ
  maxV : Option ℚ
deriving DecidableEq, Repr

/-- Statistics of one column. -/
def describeCol (ds : Dataset) (c : String) : ColStats :=
  let vs := ds.rows.map (fun r => colVal r c)
  let nums := vs.filterMap toNumV
  { count := (vs.filter (fun v => !isNA v)).length
    mean := match nums with
            | [] => none
            | _ => some (nums.sum / (nums.length : ℚ))
    minV := match nums with
            | [] => none
            | x :: xs => some (xs.foldl Min.min x)
    maxV := match nums with
            | [] => none
            | x :: xs => some (xs.foldl Max.max x) }

/-- Inferred dtype name of a column. -/
def dtypeName (ds : Dataset) (c : String) : String :=
  if numericCol ds c then "float64" else "object"

/-- The first `n` rows of a dataset (read_csv with nrows). -/
def Dataset.take (ds : Dataset) (n : Nat) : Dataset :=
  ⟨ds.cols, ds.rows.take n⟩

/-! ### The data engine -/

/-- The argument mapping of a data tool call; absent keys are `none`. -/
structure DataArgs where
  path : Option String := none
  limit : Option Nat := none
  column : Option String := none
  operator : Option String := none
  value : Option Value := none
  group_by : Option String := none
  agg_column : Option String := none
  agg_func : Option String := none

/-- The operation-specific success payload of a data tool. -/
inductive DataPayload where
  | load (rows : Nat) (columns : List String)
      (dtypes : List (String × String)) (preview : List Row)
  | describe (stats : List (String × ColStats))
  | filter (original_rows filtered_rows : Nat) (preview : List Row)
  | agg (result : List (Value × Scalar))
  | corr (matrix : List (String × List (String × Option ℝ)))

/-- The uniform result envelope: a boolean success discriminant plus either
the payload or an error string. -/
structure Envelope (P : Type) where
  success : Bool
  error : Option String
  payload : Option P

/-- Success envelope. -/
def okEnv {P : Type} (p : P) : Envelope P :=
  { success := true, error := none, payload := some p }

/-- Failure envelope. -/
def failEnv {P : Type} (e : String) : Envelope P :=
  { success := false, error := some e, payload := none }

/-- The try/except boundary: a raised fault becomes the failure envelope. -/
def mkEnvelope {P : Type} : Except String P → Envelope P
  | .ok p => okEnv p
  | .error e => failEnv e

/-- A required argument: a missing key raises KeyError. -/
def requireArg {α : Type} (o : Option α) (k : String) : Except String α :=
  match o with
  | some v => .ok v
  | none => .error ("KeyError: " ++ k)

/-- Structural-recursion mapM over Except (the engine loops row by row and
the first raised fault aborts the operation). -/
def exMapM {α β : Type} (f : α → Except String β) :
    List α → Except String (List β)
  | [] => .ok []
  | x :: xs =>
    match f x with
    | .error e => .error e
    | .ok y =>
      match exMapM f xs with
      | .error e => .error e
      | .ok ys => .ok (y :: ys)

/-- The load_csv operation body. -/
def loadOp (a : DataArgs) (db : FS) : Except String DataPayload :=
  match requireArg a.path "path" with
  | .error e => .error e
  | .ok p =>
    match db p with
    | .error e => .error e
    | .ok ds0 =>
      let ds := ds0.take (a.limit.getD 1000)
      .ok (.load ds.rows.length ds.cols
        (ds.cols.map (fun c => (c, dtypeName ds c)))
        (ds.rows.take 5))

/-- The describe operation body. -/
def describeOp (a : DataArgs) (db : FS) : Except String DataPayload :=
  match requireArg a.path "path" with
  | .error e => .error e
  | .ok p =>
    match db p with
    | .error e => .error e
    | .ok ds => .ok (.describe (ds.cols.map (fun c => (c, describeCol ds c))))

/-- The filter operation body: load, read the column/operator/value
arguments, select the elementwise comparison via the operator if-chain
(reporting Unknown operator), then build the boolean mask row by row. -/
def filterOp (a : DataArgs) (db : FS) : Except String DataPayload :=
  match requireArg a.path "path" with
  | .error e => .error e
  | .ok p =>
    match db p with
    | .error e => .error e
    | .ok ds =>
      match requireArg a.column "column" with
      | .error e => .error e
      | .ok col =>
        match requireArg a.operator "operator" with
        | .error e => .error e
        | .ok op =>
          match selectOp op with
          | .error e => .error e
          | .ok cmp =>
            if col ∈ ds.cols then
              match exMapM (fun r => cmp (colVal r col) a.value) ds.rows with
              | .error e => .error e
              | .ok mask =>
                let matched :=
                  ((ds.rows.zip mask).filter (fun rb => rb.2)).map
                    (fun rb => rb.1)
                .ok (.filter ds.rows.length matched.length (matched.take 10))
            else .error ("KeyError: " ++ col)

/-- The aggregate operation body: load, validate the two columns (groupby
and column indexing raise KeyError), then the agg_func if-chain (reporting
Unknown function) and the per-group reduction. -/
def aggregateOp (a : DataArgs) (db : FS) : Except String DataPayload :=
  match requireArg a.path "path" with
  | .error e => .error e
  | .ok p =>
    match db p with
    | .error e => .error e
    | .ok ds =>
      match requireArg a.group_by "group_by" with
      | .error e => .error e
      | .ok g =>
        if g ∈ ds.cols then
          match requireArg a.agg_column "agg_column" with
          | .error e => .error e
          | .ok ac =>
            if ac ∈ ds.cols then
              match requireArg a.agg_func "agg_func" with
              | .error e => .error e
              | .ok f =>
                if f ∈ aggFuncs then
                  match exMapM (fun k =>
                    (aggVals f (groupVals ds g ac k)).map (fun s => (k, s)))
                    (groupKeys ds g) with
                  | .error e => .error e
                  | .ok res => .ok (.agg res)
                else .error ("Unknown function: " ++ f)
            else .error ("KeyError: " ++ ac)
        else .error ("KeyError: " ++ g)

/-- The correlate operation body: load, restrict to numeric columns,
compute the Pearson matrix with non-finite entries normalized to the
no-value marker. -/
noncomputable def correlateOp (a : DataArgs) (db : FS) :
    Except String DataPayload :=
  match requireArg a.path "path" with
  | .error e => .error e
  | .ok p =>
    match db p with
    | .error e => .error e
    | .ok ds => .ok (.corr (corrMatrix ds))

/-- The data-engine body: dispatch on the tool name; an unrecognized name
is the Unknown tool failure. -/
noncomputable def dataBody (name : String) (a : DataArgs) (db : FS) :
    Except String DataPayload :=
  if name = "flynn-data_load_csv" then loadOp a db
  else if name = "flynn-data_describe" then describeOp a db
  else if name = "flynn-data_filter" then filterOp a db
  else if name = "flynn-data_aggregate" then aggregateOp a db
  else if name = "flynn-data_correlate" then correlateOp a db
  else .error ("Unknown tool: " ++ name)

/-- execute_data_tool: the body inside the try/except boundary; every raised
fault becomes the failure envelope. -/
noncomputable def execute_data_tool (name : String) (a : DataArgs) (db : FS) :
    Envelope DataPayload :=
  mkEnvelope (dataBody name a db)

/-! ### The ML engine and the pipeline cache -/

/-- An opaque loaded pipeline.  Its identity is the construction counter
`uid`: every construction by the transformers pipeline factory yields a
fresh object, and two pipelines are the same instance exactly when their
uids agree.  The task and the verbatim model argument passed to the factory
are recorded as the construction parameters. -/
structure Pipeline where
  task : String
  model : Option String
  uid : Nat
deriving DecidableEq, Repr

/-- The process-wide mutable cache: the dict of constructed pipelines plus
the construction counter supplying fresh identities. -/
structure MLState where
  pipelines : List (String × Pipeline)
  nextUid : Nat
deriving DecidableEq, Repr

/-- The state at process start: no pipeline constructed yet. -/
def initMLState : MLState := ⟨[], 0⟩

/-- The cache key: task and model joined by a colon, with every falsy model
argument (None or the empty string, via the `or` coalescing) replaced by the
sentinel default. -/
def pipelineKey (task : String) (model : Option String) : String :=
  task ++ ":" ++
    (match model with
     | some m => if m = "" then "default" else m
     | none => "default")

/-- get_pipeline: return the cached pipeline for the key, or construct one
(recording the verbatim task/model arguments and a fresh uid), store it
under the key and return it. -/
def get_pipeline (task : String) (model : Option String) (s : MLState) :
    Pipeline × MLState :=
  match tblGet s.pipelines (pipelineKey task model) with
  | some p => (p, s)
  | none =>
    (⟨task, model, s.nextUid⟩,
      ⟨(pipelineKey task model, ⟨task, model, s.nextUid⟩) :: s.pipelines,
        s.nextUid + 1⟩)

/-- The black-box inference library: each run either yields the library
result or raises (model download hiccup, runtime inference fault...).
summarize is called with min_length 30 and deterministic decoding fixed;
only its max_length argument varies. -/
structure MLOracle where
  sentiment : Pipeline → String → Except String (String × ℚ)
  summarize : Pipeline → String → Nat → Except String String
  classify : Pipeline → String → List String →
    Except String (List String × List ℚ)
  embed : List String → Except String (List (List ℚ))

/-- The argument mapping of an ML tool call; absent keys are `none`. -/
structure MLArgs where
  text : Option String := none
  max_length : Option Nat := none
  labels : Option (List String) := none
  texts : Option (List String) := none

/-- The operation-specific success payload of an ML tool. -/
inductive MLPayload where
  | sentimentRes (label : String) (score : ℚ)
  | summaryRes (summary : String)
  | classifyRes (labels : List String) (scores : List ℚ)
  | embeddingsRes (embeddings : List (List ℚ)) (dimensions : Nat)
deriving DecidableEq, Repr

/-- The ML-engine body: dispatch on the tool name, acquire the pipeline
through the cache (embeddings constructs its encoder directly, bypassing
the cache), run the black-box inference.  A cache mutation made before a
fault persists, so the body returns the updated state alongside the
raised-or-returned outcome. -/
def mlBody (o : MLOracle) (name : String) (a : MLArgs) (s : MLState) :
    Except String MLPayload × MLState :=
  if name = "flynn-ml_sentiment" then
    match a.text with
    | none => (.error "KeyError: text", s)
    | some t =>
      let ps := get_pipeline "sentiment-analysis" none s
      (((o.sentiment ps.1 t).map (fun r => .sentimentRes r.1 r.2)), ps.2)
  else if name = "flynn-ml_summarize" then
    match a.text with
    | none => (.error "KeyError: text", s)
    | some t =>
      let ps := get_pipeline "summarization" none s
      (((o.summarize ps.1 t (a.max_length.getD 150)).map
        (fun r => .summaryRes r)), ps.2)
  else if name = "flynn-ml_classify" then
    match a.text with
    | none => (.error "KeyError: text", s)
    | some t =>
      match a.labels with
      | none => (.error "KeyError: labels", s)
      | some ls =>
        let ps := get_pipeline "zero-shot-classification" none s
        (((o.classify ps.1 t ls).map
          (fun r => .classifyRes r.1 r.2)), ps.2)
  else if name = "flynn-ml_embeddings" then
    match a.texts with
    | none => (.error "KeyError: texts", s)
    | some ts =>
      (((o.embed ts).map (fun vecs =>
        .embeddingsRes vecs ((vecs.headD []).length))), s)
  else (.error ("Unknown tool: " ++ name), s)

/-- execute_ml_tool: the body inside the try/except boundary; every raised
fault becomes the failure envelope, and the cache state survives. -/
def execute_ml_tool (o : MLOracle) (name : String) (a : MLArgs)
    (s : MLState) : Envelope MLPayload × MLState :=
  let rs := mlBody o name a s
  (mkEnvelope rs.1, rs.2)

/-! ### Specification-side restatements

The following definitions restate, in the spec's direct vocabulary, the
quantities the claims compare against the engine's output: the per-row
predicate outcome of filter, and the per-group direct recomputation of
aggregate over the rows of the partition. -/

/-- Whether a row satisfies the filter predicate for the given operator:
the elementwise comparison selected by the operator evaluates to True on
the row's cell (a raised comparison or an unrecognized operator never
counts a row as matching). -/
def rowMatches (op col : String) (val : Option Value) (r : Row) : Bool :=
  match selectOp op with
  | .error _ => false
  | .ok cmp =>
    match cmp (colVal r col) val with
    | .ok b => b
    | .error _ => false

/-- The exact number of rows of the dataset satisfying the filter
predicate. -/
def countMatching (ds : Dataset) (op col : String) (val : Option Value) :
    Nat :=
  ds.rows.countP (rowMatches op col val)

/-- The partition of group `k`: the rows whose grouping column equals `k`
(grouping-key equality by exact value match). -/
def specPartition (ds : Dataset) (g : String) (k : Value) : List Row :=
  ds.rows.filter (fun r => decide (colVal r g = k))

/-- The agg-column values over the partition of group `k`. -/
def specColVals (ds : Dataset) (g a : String) (k : Value) : List Value :=
  (specPartition ds g k).map (fun r => colVal r a)

/-- Direct recomputation of count: the number of rows in the partition with
a non-missing agg-column value (not the total row count). -/
def specCountNonMissing (ds : Dataset) (g a : String) (k : Value) : Nat :=
  (specColVals ds g a k).countP (fun v => !isNA v)

/-- The numeric agg-column values over the partition of group `k`. -/
def specNums (ds : Dataset) (g a : String) (k : Value) : List ℚ :=
  (specColVals ds g a k).filterMap toNumV

/-- The textual agg-column values over the partition of group `k`. -/
def specStrs (ds : Dataset) (g a : String) (k : Value) : List String :=
  (specColVals ds g a k).filterMap toStrV

/-- The envelope invariant of the uniform failure contract: a boolean
success discriminant, the payload exactly on success, and a string error
message exactly on failure. -/
def envelopeOk {P : Type} (e : Envelope P) : Prop :=
  (e.success = true ∧ e.error = none ∧ ∃ p, e.payload = some p) ∨
  (e.success = false ∧ (∃ m, e.error = some m) ∧ e.payload = none)

/-- Well-formedness of the pipeline cache: every stored pipeline was
constructed before the current counter, and no two stored pipelines share
an identity. -/
def cacheWF (s : MLState) : Prop :=
  (∀ kp ∈ s.pipelines, kp.2.uid < s.nextUid) ∧
  (s.pipelines.map (fun kp => kp.2.uid)).Nodup

/-- The 5-row sample dataset of the repository's tests
(name, age, city, salary). -/
def sampleData : Dataset :=
  ⟨["name", "age", "city", "salary"],
   [[("name", .vstr "Alice"), ("age", .vnum 30),
     ("city", .vstr "Berlin"), ("salary", .vnum 50000)],
    [("name", .vstr "Bob"), ("age", .vnum 25),
     ("city", .vstr "Munich"), ("salary", .vnum 45000)],
    [("name", .vstr "Charlie"), ("age", .vnum 35),
     ("city", .vstr "Hamburg"), ("salary", .vnum 60000)],
    [("name", .vstr "Diana"), ("age", .vnum 28),
     ("city", .vstr "Berlin"), ("salary", .vnum 55000)],
    [("name", .vstr "Eve"), ("age", .vnum 32),
     ("city", .vstr "Munich"), ("salary", .vnum 58000)]]⟩

/-- A one-numeric-column dataset with nonzero variance. -/
def oneColData : Dataset := ⟨["x"], [[("x", .vnum 0)], [("x", .vnum 2)]]⟩

/-! ### Helper lemmas -/

theorem tblGet_mem {α : Type} :
    ∀ (l : List (String × α)) (k : String) (v : α),
      tblGet l k = some v → (k, v) ∈ l := by
  intro l
  induction l with
  | nil => intro k v h; simp [tblGet] at h
  | cons kp rest ih =>
    intro k v h
    obtain ⟨k1, v1⟩ := kp
    by_cases hk : k1 = k
    · subst hk
      simp only [tblGet, if_true, eq_self_iff_true, Option.some.injEq] at h
      subst h
      exact List.mem_cons_self _ _
    · simp only [tblGet, if_neg hk] at h
      exact List.mem_cons_of_mem _ (ih k v h)

theorem tblGet_map_self {α : Type} (f : String → α) :
    ∀ (l : List String) (a : String), a ∈ l →
      tblGet (l.map (fun x => (x, f x))) a = some (f a) := by
  intro l
  induction l with
  | nil => simp
  | cons x xs ih =>
    intro a ha
    by_cases hx : x = a
    · subst hx
      simp [tblGet]
    · rcases List.mem_cons.mp ha with h | h
      · exact absurd h.symm hx
      · simp only [List.map_cons, tblGet, if_neg hx]
        exact ih a h

theorem exMapM_ok_mem {α β : Type} (f : α → Except String β) :
    ∀ (l : List α) (ys : List β), exMapM f l = .ok ys →
      ∀ y ∈ ys, ∃ x ∈ l, f x = .ok y := by
  intro l
  induction l with
  | nil =>
    intro ys h y hy
    simp only [exMapM, Except.ok.injEq] at h
    subst h
    simp at hy
  | cons x xs ih =>
    intro ys h y hy
    cases hfx : f x with
    | error e =>
      simp only [exMapM, hfx] at h
      exact Except.noConfusion h
    | ok b =>
      cases hxs : exMapM f xs with
      | error e =>
        simp only [exMapM, hfx, hxs] at h
        exact Except.noConfusion h
      | ok ys2 =>
        simp only [exMapM, hfx, hxs, Except.ok.injEq] at h
        subst h
        rcases List.mem_cons.mp hy with h | h
        · exact ⟨x, List.mem_cons_self _ _, h ▸ hfx⟩
        · obtain ⟨x2, hx2, hfx2⟩ := ih ys2 hxs y h
          exact ⟨x2, List.mem_cons_of_mem _ hx2, hfx2⟩

theorem exMapM_filter_zip {α : Type} (f : α → Except String Bool) :
    ∀ (l : List α) (mask : List Bool), exMapM f l = .ok mask →
      ((l.zip mask).filter (fun rb => rb.2)).length =
        l.countP (fun r =>
          match f r with
          | .ok b => b
          | .error _ => false) := by
  intro l
  induction l with
  | nil =>
    intro mask h
    simp only [exMapM, Except.ok.injEq] at h
    subst h
    simp
  | cons x xs ih =>
    intro mask h
    cases hfx : f x with
    | error e =>
      simp only [exMapM, hfx] at h
      exact Except.noConfusion h
    | ok b =>
      cases hxs : exMapM f xs with
      | error e =>
        simp only [exMapM, hfx, hxs] at h
        exact Except.noConfusion h
      | ok ys2 =>
        simp only [exMapM, hfx, hxs, Except.ok.injEq] at h
        subst h
        have hcount := ih ys2 hxs
        cases b with
        | true => simp [List.filter_cons, List.countP_cons, hfx, hcount]
        | false => simp [List.filter_cons, List.countP_cons, hfx, hcount]

theorem filterMap_ite_eq_filter_map {α β : Type} (q : α → Prop)
    [DecidablePred q] (f : α → β) :
    ∀ l : List α,
      (l.filterMap (fun x => if q x then some (f x) else none)) =
        (l.filter (fun x => decide (q x))).map f := by
  intro l
  induction l with
  | nil => simp
  | cons x xs ih =>
    by_cases hq : q x
    · simp [hq, ih]
    · simp [hq, ih]

theorem mem_dedupAux :
    ∀ (seen l : List Value) (v : Value), v ∈ dedupAux seen l → v ∈ l := by
  intro seen l
  induction l generalizing seen with
  | nil => simp [dedupAux]
  | cons x xs ih =>
    intro v hv
    by_cases hx : x ∈ seen
    · simp only [dedupAux, if_pos hx] at hv
      exact List.mem_cons_of_mem _ (ih seen v hv)
    · simp only [dedupAux, if_neg hx] at hv
      rcases List.mem_cons.mp hv with h | h
      · exact h ▸ List.mem_cons_self _ _
      · exact List.mem_cons_of_mem _ (ih _ v h)

theorem groupVals_eq_spec (ds : Dataset) (g a : String) (k : Value) :
    groupVals ds g a k = specColVals ds g a k :=
  filterMap_ite_eq_filter_map (fun r => colVal r g = k) (fun r => colVal r a)
    ds.rows

theorem groupKeys_not_na (ds : Dataset) (g : String) (k : Value)
    (hk : k ∈ groupKeys ds g) : k ≠ Value.vnone := by
  have h1 := mem_dedupAux [] _ k hk
  have h2 := List.of_mem_filter h1
  intro hkn
  subst hkn
  simp [isNA] at h2

theorem nodup_entry_ne :
    ∀ (l : List (String × Pipeline)),
      (l.map (fun kp => kp.2.uid)).Nodup →
      ∀ (k1 : String) (p1 : Pipeline) (k2 : String) (p2 : Pipeline),
        (k1, p1) ∈ l → (k2, p2) ∈ l → k1 ≠ k2 → p1.uid ≠ p2.uid := by
  intro l
  induction l with
  | nil => simp
  | cons kp rest ih =>
    intro hnd k1 p1 k2 p2 h1 h2 hne
    rw [List.map_cons, List.nodup_cons] at hnd
    obtain ⟨hnotin, hnd2⟩ := hnd
    rcases List.mem_cons.mp h1 with h1h | h1t
    · rcases List.mem_cons.mp h2 with h2h | h2t
      · exact absurd (by rw [← h2h] at h1h; exact congrArg Prod.fst h1h) hne
      · intro heq
        apply hnotin
        have : kp.2.uid = p2.uid := by
          rw [← h1h]
          exact heq
        rw [this]
        exact List.mem_map_of_mem (fun kp => kp.2.uid) h2t
    · rcases List.mem_cons.mp h2 with h2h | h2t
      · intro heq
        apply hnotin
        have : kp.2.uid = p1.uid := by
          rw [← h2h]
          exact heq.symm
        rw [this]
        exact List.mem_map_of_mem (fun kp => kp.2.uid) h1t
      · exact ih hnd2 k1 p1 k2 p2 h1t h2t hne

theorem pairedVals_symm (ds : Dataset) (a b : String) :
    pairedVals ds b a = (pairedVals ds a b).map Prod.swap := by
  unfold pairedVals
  induction ds.rows with
  | nil => simp
  | cons r rest ih =>
    cases ha : toNumV (colVal r a) <;> cases hb : toNumV (colVal r b) <;>
      simp [ha, hb, ih]

theorem pairedVals_self (ds : Dataset) (a : String) :
    ∀ p ∈ pairedVals ds a a, p.1 = p.2 := by
  intro p hp
  obtain ⟨r, _, hfr⟩ := List.mem_filterMap.mp hp
  cases ha : toNumV (colVal r a) with
  | none => simp [ha] at hfr
  | some q =>
    simp only [ha, Option.some.injEq] at hfr
    rw [← hfr]

theorem css_nonneg (l : List ℚ) : 0 ≤ css l := by
  unfold css
  apply List.sum_nonneg
  intro x hx
  obtain ⟨y, _, hxy⟩ := List.mem_map.mp hx
  rw [← hxy]
  exact mul_self_nonneg _

theorem ccp_diag (l : List (ℚ × ℚ)) (h : ∀ p ∈ l, p.1 = p.2) :
    ccp l = css (l.map Prod.fst) := by
  have hmaps : l.map Prod.snd = l.map Prod.fst :=
    List.map_congr_left (fun p hp => (h p hp).symm)
  unfold ccp css
  rw [hmaps, List.map_map]
  apply congrArg List.sum
  apply List.map_congr_left
  intro p hp
  simp only [Function.comp]
  rw [← h p hp]

theorem ccp_swap (l : List (ℚ × ℚ)) : ccp (l.map Prod.swap) = ccp l := by
  unfold ccp
  simp only [List.map_map]
  rw [show (Prod.fst ∘ Prod.swap : ℚ × ℚ → ℚ) = Prod.snd from rfl,
    show (Prod.snd ∘ Prod.swap : ℚ × ℚ → ℚ) = Prod.fst from rfl]
  apply congrArg List.sum
  apply List.map_congr_left
  intro p hp
  simp only [Function.comp, Prod.fst_swap, Prod.snd_swap]
  exact mul_comm _ _

theorem corrEntry_symm (ds : Dataset) (a b : String) :
    corrEntry ds b a = corrEntry ds a b := by
  unfold corrEntry
  rw [pairedVals_symm ds a b]
  simp only [List.map_map]
  rw [show (Prod.fst ∘ Prod.swap : ℚ × ℚ → ℚ) = Prod.snd from rfl,
    show (Prod.snd ∘ Prod.swap : ℚ × ℚ → ℚ) = Prod.fst from rfl,
    ccp_swap]
  have hcond : (pairedVals ds a b).map Prod.swap = [] ∨
      css ((pairedVals ds a b).map Prod.snd) = 0 ∨
      css ((pairedVals ds a b).map Prod.fst) = 0 ↔
      pairedVals ds a b = [] ∨
      css ((pairedVals ds a b).map Prod.fst) = 0 ∨
      css ((pairedVals ds a b).map Prod.snd) = 0 := by
    rw [List.map_eq_nil_iff]
    tauto
  rw [if_congr hcond rfl (by rw [mul_comm])]

theorem corrEntry_diag_one (ds : Dataset) (a : String)
    (h : css ((pairedVals ds a a).map Prod.fst) ≠ 0) :
    corrEntry ds a a = some 1 := by
  have hd := pairedVals_self ds a
  have hmaps : (pairedVals ds a a).map Prod.snd =
      (pairedVals ds a a).map Prod.fst :=
    List.map_congr_left (fun p hp => (hd p hp).symm)
  have hccp : ccp (pairedVals ds a a) =
      css ((pairedVals ds a a).map Prod.fst) := ccp_diag _ hd
  have hne : pairedVals ds a a ≠ [] := by
    intro hnil
    apply h
    rw [hnil]
    simp [css]
  unfold corrEntry
  rw [hmaps, hccp, if_neg (by push_neg; exact ⟨hne, h, h⟩)]
  congr 1
  have hpos : (0 : ℝ) ≤ ((css ((pairedVals ds a a).map Prod.fst) : ℚ) : ℝ) := by
    exact_mod_cast css_nonneg _
  rw [Real.mul_self_sqrt hpos]
  rw [div_self (by exact_mod_cast h)]

theorem corrEntry_zero_var_none (ds : Dataset) (a b : String)
    (h : pairedVals ds a b = [] ∨ css ((pairedVals ds a b).map Prod.fst) = 0 ∨
      css ((pairedVals ds a b).map Prod.snd) = 0) :
    corrEntry ds a b = none := by
  unfold corrEntry
  rw [if_pos h]

theorem aggVals_count (vs : List Value) :
    aggVals "count" vs = .ok (.num (vs.countP (fun v => !isNA v))) := rfl

theorem aggVals_sum_nums (vs : List Value) (h : vs.filterMap toStrV = []) :
    aggVals "sum" vs = .ok (.num (vs.filterMap toNumV).sum) := by
  unfold aggVals
  rw [h]
  rfl

theorem aggVals_mean_nums (vs : List Value) (h : vs.filterMap toStrV = []) :
    aggVals "mean" vs =
      .ok (match vs.filterMap toNumV with
           | [] => Scalar.nan
           | l => Scalar.num (l.sum / (l.length : ℚ))) := by
  unfold aggVals
  rw [h]
  rfl

theorem aggVals_min_nums (vs : List Value) (h : vs.filterMap toStrV = []) :
    aggVals "min" vs =
      .ok (match vs.filterMap toNumV with
           | [] => Scalar.nan
           | x :: xs => Scalar.num (xs.foldl Min.min x)) := by
  unfold aggVals
  rw [h]
  rfl

theorem aggVals_max_nums (vs : List Value) (h : vs.filterMap toStrV = []) :
    aggVals "max" vs =
      .ok (match vs.filterMap toNumV with
           | [] => Scalar.nan
           | x :: xs => Scalar.num (xs.foldl Max.max x)) := by
  unfold aggVals
  rw [h]
  rfl

theorem get_pipeline_cached (t : String) (m : Option String) (s : MLState)
    (p : Pipeline) (h : tblGet s.pipelines (pipelineKey t m) = some p) :
    get_pipeline t m s = (p, s) := by
  unfold get_pipeline
  rw [h]

theorem get_pipeline_uncached (t : String) (m : Option String) (s : MLState)
    (h : tblGet s.pipelines (pipelineKey t m) = none) :
    get_pipeline t m s =
      (⟨t, m, s.nextUid⟩,
        ⟨(pipelineKey t m, ⟨t, m, s.nextUid⟩) :: s.pipelines,
          s.nextUid + 1⟩) := by
  unfold get_pipeline
  rw [h]

theorem corrLookup_matrix (ds : Dataset) (a b : String)
    (ha : a ∈ numericCols ds) (hb : b ∈ numericCols ds) :
    corrLookup (corrMatrix ds) a b = some (corrEntry ds a b) := by
  unfold corrLookup corrMatrix
  rw [tblGet_map_self _ _ _ ha]
  simp only [Option.some_bind]
  exact tblGet_map_self _ _ _ hb

/-! ### The claims -/

/-- Claim C1: for every tool name and every argument mapping, both
execution engines return the uniform envelope — a boolean success
discriminant with the payload and no error on success, or a string error
message and no payload on failure; every fault raised inside a body is
caught at the engine boundary, so no exception propagates to the caller. -/
theorem C1_uniform_failure_contract :
    (∀ (name : String) (a : DataArgs) (db : FS),
      envelopeOk (execute_data_tool name a db)) ∧
    (∀ (o : MLOracle) (name : String) (a : MLArgs) (s : MLState),
      envelopeOk (execute_ml_tool o name a s).1) := by
  constructor
  · intro name a db
    unfold execute_data_tool
    cases dataBody name a db with
    | ok p => exact Or.inl ⟨rfl, rfl, p, rfl⟩
    | error e => exact Or.inr ⟨rfl, ⟨e, rfl⟩, rfl⟩
  · intro o name a s
    show envelopeOk (mkEnvelope (mlBody o name a s).1)
    cases (mlBody o name a s).1 with
    | ok p => exact Or.inl ⟨rfl, rfl, p, rfl⟩
    | error e => exact Or.inr ⟨rfl, ⟨e, rfl⟩, rfl⟩

/-- Claim C4 (code evaluation at the failing input): on a dataset whose
single row has a missing value in the filtered column, contains with the
value a matches the row, because the missing cell is coerced by astype(str)
to the text nan before the substring test, so the engine reports
filtered_rows 1 where the spec requires missing values never to match. -/
theorem C4_missing_value_matches_contains :
    execute_data_tool "flynn-data_filter"
      ⟨some "data.csv", none, some "name", some "contains",
        some (.vstr "a"), none, none, none⟩
      (fun _ => .ok ⟨["name"], [[("name", .vnone)]]⟩) =
      okEnv (.filter 1 1 [[("name", Value.vnone)]]) ∧
    cellStr Value.vnone = "nan" ∧
    evalContains Value.vnone (some (Value.vstr "a")) = true :=
  ⟨rfl, rfl, rfl⟩

/-- Claim C6 (amended): the dataset load runs before operator validation:
when the path is unreadable, filter returns the load failure for every
operator — including an unrecognized one — rather than the Unknown
operator failure. -/
theorem C6_load_precedes_operator_validation (db : FS) (p e : String)
    (hload : db p = .error e) :
    ∀ (col opv : String) (v : Option Value) (lim : Option Nat)
      (gb ac af : Option String),
      execute_data_tool "flynn-data_filter"
        ⟨some p, lim, some col, some opv, v, gb, ac, af⟩ db = failEnv e := by
  intro col opv v lim gb ac af
  show mkEnvelope
    (filterOp ⟨some p, lim, some col, some opv, v, gb, ac, af⟩ db) =
    failEnv e
  simp [filterOp, requireArg, hload, mkEnvelope]

/-- Claim C6 counterexample: with an unreadable path and the unrecognized
operator bogus, the engine returns the load failure, not the promised
Unknown operator failure. -/
theorem C6_counterexample :
    execute_data_tool "flynn-data_filter"
      ⟨some "missing.csv", none, some "age", some "bogus",
        none, none, none, none⟩
      (fun _ => .error "No such file or directory") =
      failEnv "No such file or directory" ∧
    failEnv "No such file or directory" ≠
      (failEnv ("Unknown operator: " ++ "bogus") : Envelope DataPayload) := by
  refine ⟨rfl, fun h => ?_⟩
  exact absurd (congrArg Envelope.error h) (by decide)

/-- Witness for C6 at a concrete unreadable path and unrecognized
operator. -/
theorem C6_witness :
    ((fun _ => Except.error "boom") : FS) "missing.csv" = .error "boom" ∧
    execute_data_tool "flynn-data_filter"
      ⟨some "missing.csv", none, some "age", some "bogus",
        none, none, none, none⟩
      (fun _ => .error "boom") = failEnv "boom" :=
  ⟨rfl, C6_load_precedes_operator_validation _ _ _ rfl
    "age" "bogus" none none none none none⟩

/-- Claim C10: get_pipeline coalesces every falsy model argument to the
default sentinel: the empty-string model derives the same cache key as the
omitted model, a cached entry under that key is returned unchanged by
both spellings, and both spellings store under the same key rather than
creating a distinct cache entry. -/
theorem C10_falsy_model_coalesces (t : String) (s : MLState) :
    pipelineKey t (some "") = t ++ ":" ++ "default" ∧
    pipelineKey t none = t ++ ":" ++ "default" ∧
    (∀ p : Pipeline, tblGet s.pipelines (pipelineKey t none) = some p →
      get_pipeline t (some "") s = (p, s) ∧
      get_pipeline t none s = (p, s)) ∧
    (get_pipeline t (some "") s).2.pipelines.map Prod.fst =
      (get_pipeline t none s).2.pipelines.map Prod.fst := by
  have hkey : pipelineKey t (some "") = pipelineKey t none := rfl
  refine ⟨rfl, rfl, ?_, ?_⟩
  · intro p hp
    exact ⟨get_pipeline_cached t (some "") s p (hkey ▸ hp),
      get_pipeline_cached t none s p hp⟩
  · cases h : tblGet s.pipelines (pipelineKey t none) with
    | some p =>
      rw [get_pipeline_cached t (some "") s p (hkey ▸ h),
        get_pipeline_cached t none s p h]
    | none =>
      rw [get_pipeline_uncached t (some "") s (hkey ▸ h),
        get_pipeline_uncached t none s h]
      simp [hkey]

/-- Witness for C10 at a concrete cached state. -/
theorem C10_witness :
    tblGet (get_pipeline "sentiment-analysis" none initMLState).2.pipelines
        (pipelineKey "sentiment-analysis" none) =
      some ⟨"sentiment-analysis", none, 0⟩ ∧
    get_pipeline "sentiment-analysis" (some "")
        (get_pipeline "sentiment-analysis" none initMLState).2 =
      (⟨"sentiment-analysis", none, 0⟩,
        (get_pipeline "sentiment-analysis" none initMLState).2) :=
  ⟨by decide,
    ((C10_falsy_model_coalesces "sentiment-analysis"
      (get_pipeline "sentiment-analysis" none initMLState).2).2.2.1
      ⟨"sentiment-analysis", none, 0⟩ (by decide)).1⟩

/-- Claim C2 (amended): two successive get_pipeline calls with the same
(task, model) arguments return the same pipeline instance and the second
call leaves the cache unchanged (no reconstruction); two acquisitions whose
derived cache keys differ return distinct, independently constructed
instances.  (As literally stated over (task, model) pairs the claim fails:
two different pairs can coalesce to the same key, see the
counterexample.) -/
theorem C2_cache_memoization :
    (∀ (t : String) (m : Option String) (s : MLState),
      get_pipeline t m (get_pipeline t m s).2 =
        ((get_pipeline t m s).1, (get_pipeline t m s).2)) ∧
    (∀ (t1 : String) (m1 : Option String) (t2 : String) (m2 : Option String)
      (s : MLState), cacheWF s →
      pipelineKey t1 m1 ≠ pipelineKey t2 m2 →
      (get_pipeline t2 m2 (get_pipeline t1 m1 s).2).1 ≠
        (get_pipeline t1 m1 s).1) := by
  constructor
  · intro t m s
    cases h : tblGet s.pipelines (pipelineKey t m) with
    | some p =>
      rw [get_pipeline_cached t m s p h]
      exact get_pipeline_cached t m s p h
    | none =>
      rw [get_pipeline_uncached t m s h]
      exact get_pipeline_cached t m _ _ (by simp [tblGet])
  · intro t1 m1 t2 m2 s hwf hk
    cases h1 : tblGet s.pipelines (pipelineKey t1 m1) with
    | some p1 =>
      rw [get_pipeline_cached t1 m1 s p1 h1]
      cases h2 : tblGet s.pipelines (pipelineKey t2 m2) with
      | some p2 =>
        rw [get_pipeline_cached t2 m2 s p2 h2]
        intro heq
        exact nodup_entry_ne s.pipelines hwf.2 _ p2 _ p1
          (tblGet_mem _ _ _ h2) (tblGet_mem _ _ _ h1) (Ne.symm hk)
          (congrArg Pipeline.uid heq)
      | none =>
        rw [get_pipeline_uncached t2 m2 s h2]
        intro heq
        have hlt : p1.uid < s.nextUid := hwf.1 _ (tblGet_mem _ _ _ h1)
        have huid : s.nextUid = p1.uid := congrArg Pipeline.uid heq
        omega
    | none =>
      rw [get_pipeline_uncached t1 m1 s h1]
      have hstep : tblGet
          ((pipelineKey t1 m1, (⟨t1, m1, s.nextUid⟩ : Pipeline)) ::
            s.pipelines) (pipelineKey t2 m2) =
          tblGet s.pipelines (pipelineKey t2 m2) := by
        simp [tblGet, hk]
      cases h2 : tblGet s.pipelines (pipelineKey t2 m2) with
      | some p2 =>
        rw [get_pipeline_cached t2 m2 _ p2 (by rw [hstep, h2])]
        intro heq
        have hlt : p2.uid < s.nextUid := hwf.1 _ (tblGet_mem _ _ _ h2)
        have huid : p2.uid = s.nextUid := congrArg Pipeline.uid heq
        omega
      | none =>
        rw [get_pipeline_uncached t2 m2 _ (by rw [hstep, h2])]
        intro heq
        have huid : s.nextUid + 1 = s.nextUid := congrArg Pipeline.uid heq
        omega

/-- Claim C2 counterexample: the pairs (sentiment-analysis, empty string)
and (sentiment-analysis, omitted) differ, yet the second acquisition
returns the very same pipeline instance as the first and performs no
construction — the falsy model coalesces to the same cache key — so
differing (task, model) pairs do not always yield distinct instances. -/
theorem C2_counterexample :
    (some "" : Option String) ≠ (none : Option String) ∧
    (get_pipeline "sentiment-analysis" none
        (get_pipeline "sentiment-analysis" (some "") initMLState).2).1 =
      (get_pipeline "sentiment-analysis" (some "") initMLState).1 ∧
    (get_pipeline "sentiment-analysis" none
        (get_pipeline "sentiment-analysis" (some "") initMLState).2).2 =
      (get_pipeline "sentiment-analysis" (some "") initMLState).2 := by
  decide

/-- Witness for C2 at concrete tasks and the empty starting cache. -/
theorem C2_witness :
    cacheWF initMLState ∧
    pipelineKey "sentiment-analysis" none ≠ pipelineKey "summarization" none ∧
    get_pipeline "sentiment-analysis" none
        (get_pipeline "sentiment-analysis" none initMLState).2 =
      ((get_pipeline "sentiment-analysis" none initMLState).1,
        (get_pipeline "sentiment-analysis" none initMLState).2) ∧
    (get_pipeline "summarization" none
        (get_pipeline "sentiment-analysis" none initMLState).2).1 ≠
      (get_pipeline "sentiment-analysis" none initMLState).1 :=
  ⟨⟨by simp [initMLState], by simp [initMLState]⟩, by decide,
    C2_cache_memoization.1 "sentiment-analysis" none initMLState,
    C2_cache_memoization.2 "sentiment-analysis" none "summarization" none
      initMLState ⟨by simp [initMLState], by simp [initMLState]⟩ (by decide)⟩

/-- Claim C5: with a readable dataset path, filter with an unrecognized
operator fails with the explicit message Unknown operator followed by the
literal offending value, and aggregate with an unrecognized agg_func fails
with the explicit message Unknown function followed by the literal
offending value — as explicit validation results of the enum if-chains. -/
theorem C5_unknown_enum_messages (db : FS) (p : String) (ds : Dataset)
    (hload : db p = .ok ds) :
    (∀ (col opv : String) (v : Option Value) (lim : Option Nat)
      (gb ac af : Option String), opv ∉ recognizedOps →
      execute_data_tool "flynn-data_filter"
        ⟨some p, lim, some col, some opv, v, gb, ac, af⟩ db =
        failEnv ("Unknown operator: " ++ opv)) ∧
    (∀ (g ac f : String) (lim : Option Nat) (c o : Option String)
      (v : Option Value), g ∈ ds.cols → ac ∈ ds.cols → f ∉ aggFuncs →
      execute_data_tool "flynn-data_aggregate"
        ⟨some p, lim, c, o, v, some g, some ac, some f⟩ db =
        failEnv ("Unknown function: " ++ f)) := by
  constructor
  · intro col opv v lim gb ac af hop
    simp only [recognizedOps, List.mem_cons, List.not_mem_nil, or_false,
      not_or] at hop
    obtain ⟨h1, h2, h3, h4, h5, h6, h7⟩ := hop
    show mkEnvelope
      (filterOp ⟨some p, lim, some col, some opv, v, gb, ac, af⟩ db) = _
    simp [filterOp, requireArg, hload, selectOp, h1, h2, h3, h4, h5, h6, h7,
      mkEnvelope, failEnv]
  · intro g ac f lim c o v hg ha hf
    simp only [aggFuncs, List.mem_cons, List.not_mem_nil, or_false,
      not_or] at hf
    obtain ⟨h1, h2, h3, h4, h5⟩ := hf
    show mkEnvelope
      (aggregateOp ⟨some p, lim, c, o, v, some g, some ac, some f⟩ db) = _
    simp [aggregateOp, requireArg, hload, hg, ha, aggFuncs, h1, h2, h3, h4,
      h5, mkEnvelope, failEnv]

/-- Witness for C5 at the sample dataset with the offending value
invalid. -/
theorem C5_witness :
    ((fun _ => Except.ok sampleData) : FS) "d.csv" = .ok sampleData ∧
    "invalid" ∉ recognizedOps ∧
    "city" ∈ sampleData.cols ∧ "salary" ∈ sampleData.cols ∧
    "invalid" ∉ aggFuncs ∧
    execute_data_tool "flynn-data_filter"
      ⟨some "d.csv", none, some "age", some "invalid", some (.vnum 30),
        none, none, none⟩ (fun _ => .ok sampleData) =
      failEnv ("Unknown operator: " ++ "invalid") ∧
    execute_data_tool "flynn-data_aggregate"
      ⟨some "d.csv", none, none, none, none, some "city", some "salary",
        some "invalid"⟩ (fun _ => .ok sampleData) =
      failEnv ("Unknown function: " ++ "invalid") :=
  ⟨rfl, by decide, by decide, by decide, by decide,
    (C5_unknown_enum_messages (fun _ => .ok sampleData) "d.csv" sampleData
      rfl).1 "age" "invalid" (some (.vnum 30)) none none none none
      (by decide),
    (C5_unknown_enum_messages (fun _ => .ok sampleData) "d.csv" sampleData
      rfl).2 "city" "salary" "invalid" none none none none
      (by decide) (by decide) (by decide)⟩

/-- Claim C3: on a successful filter over a loaded dataset, original_rows
is the dataset's row count, original_rows >= filtered_rows >= 0 holds, and
filtered_rows is exactly the number of rows satisfying the selected
operator's typed comparison of the column value against the argument. -/
theorem C3_filter_counts (db : FS) (p col opv : String) (ds : Dataset)
    (v : Option Value) (lim : Option Nat) (gb ac af : Option String)
    (n k : Nat) (pre : List Row)
    (hload : db p = .ok ds) (hcol : col ∈ ds.cols)
    (hexec : execute_data_tool "flynn-data_filter"
      ⟨some p, lim, some col, some opv, v, gb, ac, af⟩ db =
      okEnv (.filter n k pre)) :
    n = ds.rows.length ∧ k ≤ n ∧ k = countMatching ds opv col v := by
  have hb : execute_data_tool "flynn-data_filter"
      ⟨some p, lim, some col, some opv, v, gb, ac, af⟩ db =
      mkEnvelope
        (filterOp ⟨some p, lim, some col, some opv, v, gb, ac, af⟩ db) := rfl
  rw [hb] at hexec
  simp only [filterOp, requireArg, hload] at hexec
  cases hsel : selectOp opv with
  | error e =>
    simp only [hsel] at hexec
    exact absurd hexec (by simp [mkEnvelope, okEnv, failEnv])
  | ok cmp =>
    simp only [hsel, hcol, if_true] at hexec
    cases hmask : exMapM (fun r => cmp (colVal r col) v) ds.rows with
    | error e =>
      simp only [hmask] at hexec
      exact absurd hexec (by simp [mkEnvelope, okEnv, failEnv])
    | ok mask =>
      simp only [hmask, mkEnvelope, okEnv, Envelope.mk.injEq,
        Option.some.injEq, DataPayload.filter.injEq, true_and] at hexec
      obtain ⟨hn, hk2, _⟩ := hexec
      have hlen := exMapM_filter_zip (fun r => cmp (colVal r col) v)
        ds.rows mask hmask
      have hrm : rowMatches opv col v = fun r =>
          match cmp (colVal r col) v with
          | .ok b => b
          | .error _ => false := by
        funext r
        simp [rowMatches, hsel]
      have hkc : k = countMatching ds opv col v := by
        rw [← hk2, List.length_map, hlen]
        unfold countMatching
        rw [hrm]
      refine ⟨hn.symm, ?_, hkc⟩
      rw [hkc, ← hn]
      unfold countMatching
      exact List.countP_le_length _

/-- Witness for C3: filtering the sample dataset by age gt 30 keeps
exactly the two matching rows out of five. -/
theorem C3_witness :
    ((fun _ => Except.ok sampleData) : FS) "d.csv" = .ok sampleData ∧
    "age" ∈ sampleData.cols ∧
    execute_data_tool "flynn-data_filter"
      ⟨some "d.csv", none, some "age", some "gt", some (.vnum 30),
        none, none, none⟩ (fun _ => .ok sampleData) =
      okEnv (.filter 5 2
        [[("name", .vstr "Charlie"), ("age", .vnum 35),
          ("city", .vstr "Hamburg"), ("salary", .vnum 60000)],
         [("name", .vstr "Eve"), ("age", .vnum 32),
          ("city", .vstr "Munich"), ("salary", .vnum 58000)]]) ∧
    (5 = sampleData.rows.length ∧ 2 ≤ 5 ∧
      2 = countMatching sampleData "gt" "age" (some (.vnum 30))) :=
  ⟨rfl, by decide, rfl,
    C3_filter_counts (fun _ => .ok sampleData) "d.csv" "age" "gt"
      sampleData (some (.vnum 30)) none none none none 5 2
      [[("name", .vstr "Charlie"), ("age", .vnum 35),
        ("city", .vstr "Hamburg"), ("salary", .vnum 60000)],
       [("name", .vstr "Eve"), ("age", .vnum 32),
        ("city", .vstr "Munich"), ("salary", .vnum 58000)]]
      rfl (by decide) rfl⟩

/-- Claim C8: correlate returns the matrix keyed by exactly the numeric
columns on both axes; the matrix is symmetric; the diagonal entry is
exactly 1 for any column with nonzero variance over its non-missing
values; and a non-finite entry (no paired observations, or zero variance
on either side) is normalized to the explicit no-value marker rather than
propagated. -/
theorem C8_correlation_matrix (db : FS) (p : String) (ds : Dataset)
    (lim : Option Nat) (c o : Option String) (v : Option Value)
    (gb ac af : Option String)
    (hload : db p = .ok ds) :
    execute_data_tool "flynn-data_correlate"
      ⟨some p, lim, c, o, v, gb, ac, af⟩ db = okEnv (.corr (corrMatrix ds)) ∧
    (corrMatrix ds).map Prod.fst = numericCols ds ∧
    (∀ a b, a ∈ numericCols ds → b ∈ numericCols ds →
      corrLookup (corrMatrix ds) a b = corrLookup (corrMatrix ds) b a) ∧
    (∀ a, a ∈ numericCols ds →
      css ((pairedVals ds a a).map Prod.fst) ≠ 0 →
      corrLookup (corrMatrix ds) a a = some (some 1)) ∧
    (∀ a b, a ∈ numericCols ds → b ∈ numericCols ds →
      (pairedVals ds a b = [] ∨ css ((pairedVals ds a b).map Prod.fst) = 0 ∨
        css ((pairedVals ds a b).map Prod.snd) = 0) →
      corrLookup (corrMatrix ds) a b = some none) := by
  refine ⟨?_, ?_, ?_, ?_, ?_⟩
  · show mkEnvelope (correlateOp ⟨some p, lim, c, o, v, gb, ac, af⟩ db) = _
    simp [correlateOp, requireArg, hload, mkEnvelope, okEnv]
  · unfold corrMatrix
    rw [List.map_map]
    rw [show (Prod.fst ∘ fun a =>
      (a, (numericCols ds).map (fun b => (b, corrEntry ds a b)))) = id
      from rfl]
    exact List.map_id _
  · intro a b hA hB
    rw [corrLookup_matrix ds a b hA hB, corrLookup_matrix ds b a hB hA,
      corrEntry_symm]
  · intro a hA h
    rw [corrLookup_matrix ds a a hA hA, corrEntry_diag_one ds a h]
  · intro a b hA hB h
    rw [corrLookup_matrix ds a b hA hB, corrEntry_zero_var_none ds a b h]

/-- Witness for C8: the one-numeric-column dataset with values 0 and 2 has
nonzero variance and its diagonal correlation entry is exactly 1. -/
theorem C8_witness :
    ((fun _ => Except.ok oneColData) : FS) "d.csv" = .ok oneColData ∧
    css ((pairedVals oneColData "x" "x").map Prod.fst) ≠ 0 ∧
    "x" ∈ numericCols oneColData ∧
    corrLookup (corrMatrix oneColData) "x" "x" = some (some 1) := by
  have hvar : css ((pairedVals oneColData "x" "x").map Prod.fst) ≠ 0 := by
    have h : (pairedVals oneColData "x" "x").map Prod.fst = [0, 2] := by rfl
    rw [h]
    norm_num [css, meanQ]
  refine ⟨rfl, hvar, by decide, ?_⟩
  exact (C8_correlation_matrix (fun _ => .ok oneColData) "d.csv" oneColData
    none none none none none none none rfl).2.2.2.1 "x" (by decide) hvar

/-- Claim C7 (amended): on a successful aggregate, the result maps each
native, non-missing group key to the reduction of the agg-column over that
group's partition: count is the number of rows in the partition with a
non-missing agg-column value (not the total row count), and
sum/mean/min/max equal direct arithmetic recomputation over the same
partition.  (The keys are the native group values; they are stringified
only when the dispatcher serializes the result, see the counterexample.) -/
theorem C7_aggregate_semantics (db : FS) (p g ac f : String) (ds : Dataset)
    (lim : Option Nat) (c o : Option String) (v : Option Value)
    (res : List (Value × Scalar))
    (hload : db p = .ok ds) (hg : g ∈ ds.cols) (ha : ac ∈ ds.cols)
    (hf : f ∈ aggFuncs)
    (hexec : execute_data_tool "flynn-data_aggregate"
      ⟨some p, lim, c, o, v, some g, some ac, some f⟩ db =
      okEnv (.agg res)) :
    ∀ kv ∈ res, kv.1 ≠ Value.vnone ∧
      (f = "count" → kv.2 = .num (specCountNonMissing ds g ac kv.1)) ∧
      (specStrs ds g ac kv.1 = [] →
        (f = "sum" → kv.2 = .num (specNums ds g ac kv.1).sum) ∧
        (f = "mean" → kv.2 = (match specNums ds g ac kv.1 with
          | [] => Scalar.nan
          | l => Scalar.num (l.sum / (l.length : ℚ)))) ∧
        (f = "min" → kv.2 = (match specNums ds g ac kv.1 with
          | [] => Scalar.nan
          | x :: xs => Scalar.num (xs.foldl Min.min x))) ∧
        (f = "max" → kv.2 = (match specNums ds g ac kv.1 with
          | [] => Scalar.nan
          | x :: xs => Scalar.num (xs.foldl Max.max x)))) := by
  intro kv hkv
  have hb : execute_data_tool "flynn-data_aggregate"
      ⟨some p, lim, c, o, v, some g, some ac, some f⟩ db =
      mkEnvelope
        (aggregateOp ⟨some p, lim, c, o, v, some g, some ac, some f⟩ db) :=
    rfl
  rw [hb] at hexec
  simp only [aggregateOp, requireArg, hload, hg, ha, hf, if_true] at hexec
  cases hm : exMapM (fun k => (aggVals f (groupVals ds g ac k)).map
      (fun s => (k, s))) (groupKeys ds g) with
  | error e =>
    simp only [hm] at hexec
    exact absurd hexec (by simp [mkEnvelope, okEnv, failEnv])
  | ok res2 =>
    simp only [hm, mkEnvelope, okEnv, Envelope.mk.injEq, Option.some.injEq,
      DataPayload.agg.injEq, true_and] at hexec
    subst hexec
    obtain ⟨kk, hkk, hfk⟩ := exMapM_ok_mem _ _ _ hm kv hkv
    cases hav : aggVals f (groupVals ds g ac kk) with
    | error e =>
      rw [hav] at hfk
      exact absurd hfk (by simp [Except.map])
    | ok sc =>
      rw [hav] at hfk
      simp only [Except.map, Except.ok.injEq] at hfk
      subst hfk
      refine ⟨groupKeys_not_na ds g kk hkk, ?_, ?_⟩
      · intro hfc
        subst hfc
        rw [aggVals_count] at hav
        simp only [Except.ok.injEq] at hav
        show sc = _
        rw [← hav, groupVals_eq_spec]
        rfl
      · intro hstrs
        have hstrs2 : (groupVals ds g ac kk).filterMap toStrV = [] := by
          rw [groupVals_eq_spec]
          exact hstrs
        refine ⟨?_, ?_, ?_, ?_⟩
        · intro hfs
          subst hfs
          rw [aggVals_sum_nums _ hstrs2] at hav
          simp only [Except.ok.injEq] at hav
          show sc = _
          rw [← hav, groupVals_eq_spec]
          rfl
        · intro hfs
          subst hfs
          rw [aggVals_mean_nums _ hstrs2] at hav
          simp only [Except.ok.injEq] at hav
          show sc = _
          rw [← hav, groupVals_eq_spec]
          rfl
        · intro hfs
          subst hfs
          rw [aggVals_min_nums _ hstrs2] at hav
          simp only [Except.ok.injEq] at hav
          show sc = _
          rw [← hav, groupVals_eq_spec]
          rfl
        · intro hfs
          subst hfs
          rw [aggVals_max_nums _ hstrs2] at hav
          simp only [Except.ok.injEq] at hav
          show sc = _
          rw [← hav, groupVals_eq_spec]
          rfl

/-- Claim C7 counterexample: grouping a numeric column returns the native
numeric group key, not its stringification: the result maps the numeric
value 1 — not the text 1 — to the count. -/
theorem C7_counterexample :
    execute_data_tool "flynn-data_aggregate"
      ⟨some "d.csv", none, none, none, none, some "g", some "a",
        some "count"⟩
      (fun _ => .ok ⟨["g", "a"],
        [[("g", .vnum 1), ("a", .vnum 5)],
         [("g", .vnum 1), ("a", .vnum 7)]]⟩) =
      okEnv (.agg [(Value.vnum 1, Scalar.num 2)]) ∧
    Value.vnum 1 ≠ Value.vstr "1" :=
  ⟨rfl, by decide⟩

/-- Witness for C7: aggregating the sample dataset by city with count over
name yields the count of non-missing names per group; in particular the
group Berlin maps to 2. -/
theorem C7_witness :
    ((fun _ => Except.ok sampleData) : FS) "d.csv" = .ok sampleData ∧
    "city" ∈ sampleData.cols ∧ "name" ∈ sampleData.cols ∧
    "count" ∈ aggFuncs ∧
    execute_data_tool "flynn-data_aggregate"
      ⟨some "d.csv", none, none, none, none, some "city", some "name",
        some "count"⟩ (fun _ => .ok sampleData) =
      okEnv (.agg [(.vstr "Berlin", .num 2), (.vstr "Munich", .num 2),
        (.vstr "Hamburg", .num 1)]) ∧
    (Value.vstr "Berlin", Scalar.num 2).2 =
      .num (specCountNonMissing sampleData "city" "name"
        (Value.vstr "Berlin", Scalar.num 2).1) :=
  ⟨rfl, by decide, by decide, by decide, rfl,
    ((C7_aggregate_semantics (fun _ => .ok sampleData) "d.csv" "city" "name"
      "count" sampleData none none none none
      [(.vstr "Berlin", .num 2), (.vstr "Munich", .num 2),
        (.vstr "Hamburg", .num 1)]
      rfl (by decide) (by decide) (by decide) rfl)
      (Value.vstr "Berlin", Scalar.num 2) (by decide)).2.1 rfl⟩

end Flynn
